import Mathlib

/-!
Verification of the opencode-session-metadata plugin (src/plugin.ts).

The plugin has two units: a metadata store (per project/session JSON file
under a storage directory) and a command annotator (prepends a marker-guarded
block of export statements to bash commands). We embed the plugin body
shallowly: JavaScript objects become association lists with first-match
lookup and replace-or-append update (the semantics of object spread with
literal overrides), the filesystem becomes an explicit state threaded through
each operation together with a trace of the filesystem calls the code makes,
and the host API call results (which the code observes only through the
response object or a thrown exception) become `Except` values supplied in the
environment.

JSON.parse and JSON.stringify are platform built-ins, external to this
repository. We model serialized file text abstractly: a file either holds a
well-formed serialization of a JSON value (JSON.parse recovers the value, as
the platform guarantees for JSON.stringify output) or malformed text carrying
the diagnostic the platform parser produces for it.
-/

/-- JSON values, the shape of the documents the metadata store handles. -/
inductive Json where
  | str (s : String)
  | num (n : Int)
  | bool (b : Bool)
  | null
  | obj (fields : List (String × Json))
  | arr (elems : List Json)

/-- A JavaScript exception as the plugin observes it: a NodeJS errno code
(when present) and a message, matching the `NodeJS.ErrnoException` narrowing
and `error.message` accesses in the source. -/
structure Exn where
  code : Option String
  message : String
deriving DecidableEq, Repr

/-- Contents of a stored file, modelling the text level abstractly:
`wellFormed v` is text that the platform JSON parser parses back to `v`
(JSON.stringify output is always such text); `malformedText raw parseError`
is text the parser rejects with diagnostic `parseError`. -/
inductive FileContent where
  | wellFormed (v : Json)
  | malformedText (raw : String) (parseError : String)

/-- The platform JSON.parse applied to stored file contents. -/
def jsonParse : FileContent → Except String Json
  | .wellFormed v => .ok v
  | .malformedText _ parseError => .error parseError

/-- First-match lookup in a JavaScript object rendered as an association
list (JavaScript object keys are unique, so first match is the match). -/
def lookupField : List (String × Json) → String → Option Json
  | [], _ => none
  | (k, v) :: rest, key => if k = key then some v else lookupField rest key

/-- JavaScript object-literal field override: writing `key: value` after a
spread keeps an existing key at its position with the new value, otherwise
appends the key. This is the semantics of the merge at plugin.ts:162-166. -/
def setField : List (String × Json) → String → Json → List (String × Json)
  | [], key, value => [(key, value)]
  | (k, v) :: rest, key, value =>
      if k = key then (key, value) :: rest else (k, v) :: setField rest key value

/-- The keys of an object. -/
def objKeys (fields : List (String × Json)) : List String :=
  fields.map Prod.fst

/-- First-match lookup of a file by path. -/
def lookupFile : List (String × FileContent) → String → Option FileContent
  | [], _ => none
  | (p, c) :: rest, path => if p = path then some c else lookupFile rest path

/-- fs.writeFile: replace the contents at the path or create the file. -/
def setFile : List (String × FileContent) → String → FileContent → List (String × FileContent)
  | [], path, content => [(path, content)]
  | (p, c) :: rest, path, content =>
      if p = path then (path, content) :: rest else (p, c) :: setFile rest path content

/-- fs.mkdir with recursive: true is idempotent; we record the directory. -/
def insertDir (dirs : List String) (d : String) : List String :=
  if d ∈ dirs then dirs else d :: dirs

/-- The filesystem state: existing directories and files with contents. -/
structure FS where
  dirs : List String
  files : List (String × FileContent)

/-- A filesystem call made by the plugin, as it appears in the source:
fs.readFile, fs.mkdir (recursive), fs.writeFile. -/
inductive FsOp where
  | readFile (path : String)
  | mkdirRec (dir : String)
  | writeFile (path : String) (content : FileContent)

/-- Whether a filesystem call is a pure read. -/
def FsOp.isRead : FsOp → Bool
  | .readFile _ => true
  | _ => false

/-- Effect of one filesystem call on the state. -/
def FS.applyOp : FS → FsOp → FS
  | fs, .readFile _ => fs
  | fs, .mkdirRec d => { fs with dirs := insertDir fs.dirs d }
  | fs, .writeFile p c => { fs with files := setFile fs.files p c }

/-- Effect of a trace of filesystem calls, in order. -/
def FS.applyTrace (fs : FS) (t : List FsOp) : FS :=
  t.foldl FS.applyOp fs

/-- The slice of the host session record the plugin reads (plugin.ts:115,158
reads only projectID; getSessionData stringifies the whole record). -/
structure SessionData where
  projectID : String
  title : String
deriving DecidableEq, Repr

/-- A non-thrown host session.get response: either carries data or carries
an error payload (the `response.data` / `response.error` fields). -/
inductive HostResponse where
  | withData (d : SessionData)
  | withError (error : String)
deriving DecidableEq, Repr

/-- The ambient environment of one tool invocation: closure values of the
plugin (homeDir, directory), the current timestamp the Date constructor
yields, and the behavior of the two host API calls, each either returning a
response or throwing. -/
structure Env where
  homeDir : String
  directory : String
  now : String
  sessionGet : Except Exn HostResponse
  sessionUpdate : Except Exn Unit
deriving Repr

/-- The tool invocation context: the session identifier in scope. -/
structure Ctx where
  sessionID : String
deriving DecidableEq, Repr

/-- getMetadataPath (plugin.ts:15-17): path.join of the storage base, the
project directory and the session file name. -/
def getMetadataPath (homeDir projectId sessionId : String) : String :=
  homeDir ++ "/.local/share/opencode/storage/session-metadata/" ++ projectId
    ++ "/" ++ sessionId ++ ".json"

/-- The project-scoped storage directory (plugin.ts:20). -/
def storageDir (homeDir projectId : String) : String :=
  homeDir ++ "/.local/share/opencode/storage/session-metadata/" ++ projectId

/-- The sentinel comment opening the injected block (plugin.ts:25). -/
def INJECTION_START_MARKER : String := "# <opencode-session-metadata-setup>"

/-- The sentinel comment closing the injected block (plugin.ts:26). -/
def INJECTION_END_MARKER : String := "# </opencode-session-metadata-setup>"

/-- Boolean prefix test on character lists. -/
def charsPrefix : List Char → List Char → Bool
  | [], _ => true
  | _ :: _, [] => false
  | a :: as, b :: bs => a = b && charsPrefix as bs

/-- Boolean substring test on character lists: the pattern occurs somewhere
in the text (second argument). -/
def charsContains (pat : List Char) : List Char → Bool
  | [] => charsPrefix pat []
  | c :: cs => charsPrefix pat (c :: cs) || charsContains pat cs

/-- JavaScript String.prototype.includes, as used at plugin.ts:47. -/
def jsIncludes (s pat : String) : Bool := charsContains pat.data s.data

/-- The three-line export block between the sentinel markers
(plugin.ts:50-54). -/
def envSetup (sessionID directory : String) : String :=
  INJECTION_START_MARKER ++ "\nexport OPENCODE_SESSION_ID=\"" ++ sessionID
    ++ "\"\nexport OPENCODE_WORKSPACE_ROOT=\"" ++ directory
    ++ "\"\nexport OPENCODE_SERVER=\"http://127.0.0.1:50154\"\n"
    ++ INJECTION_END_MARKER

/-- The tool.execute.before hook (plugin.ts:37-58): the command the host will
execute afterwards, given the tool name, process.platform, the hook input
sessionID, the plugin closure directory, and the original command. -/
def toolExecuteBefore (toolName platform sessionID directory command : String) :
    String :=
  if toolName ≠ "bash" then command
  else if platform = "win32" then command
  else if jsIncludes command INJECTION_START_MARKER then command
  else envSetup sessionID directory ++ "\n" ++ command

mutual

/-- JSON.stringify, modelled compactly: the claims inspect only the fixed
message templates around serialized values, never the serialized text. -/
def jsonStringify : Json → String
  | .str s => "\"" ++ s ++ "\""
  | .num n => toString n
  | .bool b => if b then "true" else "false"
  | .null => "null"
  | .obj fields => "\x7b" ++ jsonStringifyFields fields ++ "\x7d"
  | .arr elems => "[" ++ jsonStringifyElems elems ++ "]"

/-- Comma-separated serialization of object fields. -/
def jsonStringifyFields : List (String × Json) → String
  | [] => ""
  | [(k, v)] => "\"" ++ k ++ "\":" ++ jsonStringify v
  | (k, v) :: rest =>
      "\"" ++ k ++ "\":" ++ jsonStringify v ++ "," ++ jsonStringifyFields rest

/-- Comma-separated serialization of array elements. -/
def jsonStringifyElems : List Json → String
  | [] => ""
  | [v] => jsonStringify v
  | v :: rest => jsonStringify v ++ "," ++ jsonStringifyElems rest

end

/-- The distinct result branches of getMetadata.execute (plugin.ts:104-139). -/
inductive GetMetadataOutcome where
  | success (doc : Json)
  | noSession
  | malformed (filePath : String) (parseError : String)
  | notFound (sessionId : String)
  | readError (message : String)

/-- The message returned when no metadata file exists (plugin.ts:133-135). -/
def noMetadataMessage (sessionId : String) : String :=
  "No metadata found for session: " ++ sessionId
    ++ "\n\nUse the setMetadata tool to store custom data for this session."

/-- The message returned when the file holds invalid JSON
(plugin.ts:124-127). -/
def invalidJsonMessage (filePath parseError : String) : String :=
  "Error: Metadata file exists but contains invalid JSON\n\nFile: " ++ filePath
    ++ "\nParse error: " ++ parseError

/-- The string getMetadata.execute returns for each outcome. -/
def renderGetMetadata : GetMetadataOutcome → String
  | .success doc => jsonStringify doc
  | .noSession => "Error: Could not retrieve session data to locate metadata"
  | .malformed filePath parseError => invalidJsonMessage filePath parseError
  | .notFound sessionId => noMetadataMessage sessionId
  | .readError message => "Error reading metadata: " ++ message

/-- The try block of getMetadata.execute (plugin.ts:105-130): session lookup,
fs.readFile, JSON.parse. `.error` means a thrown exception escaping the
block; the trace lists the filesystem calls made before the block ended. -/
def getMetadataBody (env : Env) (ctx : Ctx) (fs : FS) :
    Except Exn GetMetadataOutcome × List FsOp :=
  match env.sessionGet with
  | .error e => (.error e, [])
  | .ok (.withError _) => (.ok .noSession, [])
  | .ok (.withData sd) =>
    let filePath := getMetadataPath env.homeDir sd.projectID ctx.sessionID
    match lookupFile fs.files filePath with
    | none =>
        (.error ⟨some "ENOENT",
           "ENOENT: no such file or directory, open " ++ filePath⟩,
         [.readFile filePath])
    | some content =>
        match jsonParse content with
        | .error parseError =>
            (.ok (.malformed filePath parseError), [.readFile filePath])
        | .ok v => (.ok (.success v), [.readFile filePath])

/-- getMetadata.execute (plugin.ts:104-139): the try block with its catch
handler, which maps an ENOENT code to the not-found message and any other
exception to the generic read error. The wrapped tool never throws. -/
def getMetadataRun (env : Env) (ctx : Ctx) (fs : FS) :
    Except Exn (GetMetadataOutcome × List FsOp) :=
  match getMetadataBody env ctx fs with
  | (.ok o, t) => .ok (o, t)
  | (.error e, t) =>
      .ok (if e.code = some "ENOENT" then .notFound ctx.sessionID
           else .readError e.message, t)

/-- The distinct result branches of setMetadata.execute (plugin.ts:147-177). -/
inductive SetMetadataOutcome where
  | stored (doc : List (String × Json))
  | noSession
  | storeError (message : String)

/-- The merged document setMetadata writes (plugin.ts:162-166): the caller
object spread first, then the two reserved fields as literal overrides, so
the reserved fields take precedence. -/
def fullMetadataOf (metadata : List (String × Json)) (sessionID now : String) :
    List (String × Json) :=
  setField (setField metadata "sessionId" (.str sessionID)) "storedAt" (.str now)

/-- The try block of setMetadata.execute (plugin.ts:148-173): session lookup,
ensureStorageDir (fs.mkdir recursive, plugin.ts:19-22), merge, fs.writeFile
of the serialized merged document. -/
def setMetadataBody (env : Env) (ctx : Ctx) (metadata : List (String × Json)) :
    Except Exn SetMetadataOutcome × List FsOp :=
  match env.sessionGet with
  | .error e => (.error e, [])
  | .ok (.withError _) => (.ok .noSession, [])
  | .ok (.withData sd) =>
    let dir := storageDir env.homeDir sd.projectID
    let doc := fullMetadataOf metadata ctx.sessionID env.now
    let filePath := getMetadataPath env.homeDir sd.projectID ctx.sessionID
    (.ok (.stored doc),
     [.mkdirRec dir, .writeFile filePath (.wellFormed (.obj doc))])

/-- setMetadata.execute (plugin.ts:147-177): the try block with its catch
handler. The wrapped tool never throws. -/
def setMetadataRun (env : Env) (ctx : Ctx) (metadata : List (String × Json)) :
    Except Exn (SetMetadataOutcome × List FsOp) :=
  match setMetadataBody env ctx metadata with
  | (.ok o, t) => .ok (o, t)
  | (.error e, t) => .ok (.storeError e.message, t)

/-- The string setMetadata.execute returns for each outcome. -/
def renderSetMetadata : SetMetadataOutcome → String
  | .stored doc => "Metadata stored successfully\n\n" ++ jsonStringify (.obj doc)
  | .noSession => "Error: Could not retrieve session data to locate storage"
  | .storeError message => "Error storing metadata: " ++ message

/-- The result branches of getSessionData.execute (plugin.ts:64-75). -/
inductive GetSessionDataOutcome where
  | sessionJson (d : SessionData)
  | errorPayload (error : String)

/-- getSessionData.execute (plugin.ts:64-75): no try/catch wraps the host
call here, so a thrown host exception escapes to the caller as `.error`. -/
def getSessionDataRun (env : Env) : Except Exn GetSessionDataOutcome :=
  match env.sessionGet with
  | .error e => .error e
  | .ok (.withData sd) => .ok (.sessionJson sd)
  | .ok (.withError err) => .ok (.errorPayload err)

/-- The result branches of setSessionData.execute (plugin.ts:83-98). -/
inductive SetSessionDataOutcome where
  | updated (sessionId title : String)
  | updateError (message : String)

/-- setSessionData.execute (plugin.ts:83-98): session.update inside
try/catch. The wrapped tool never throws. -/
def setSessionDataRun (env : Env) (ctx : Ctx) (title : String) :
    Except Exn SetSessionDataOutcome :=
  match env.sessionUpdate with
  | .ok _ => .ok (.updated ctx.sessionID title)
  | .error e => .ok (.updateError e.message)

theorem lookupField_setField_same (m : List (String × Json)) (k : String) (v : Json) :
    lookupField (setField m k v) k = some v := by
  induction m with
  | nil => simp [setField, lookupField]
  | cons p rest ih =>
    obtain ⟨k0, v0⟩ := p
    by_cases h : k0 = k
    · simp [setField, h, lookupField]
    · simp [setField, h, lookupField, ih]

theorem objKeys_cons (k0 : String) (v0 : Json) (rest : List (String × Json)) :
    objKeys ((k0, v0) :: rest) = k0 :: objKeys rest := rfl

theorem lookupField_setField_other (m : List (String × Json)) (k k' : String)
    (v : Json) (h : k' ≠ k) :
    lookupField (setField m k v) k' = lookupField m k' := by
  induction m with
  | nil => simp [setField, lookupField, Ne.symm h]
  | cons p rest ih =>
    obtain ⟨k0, v0⟩ := p
    by_cases h0 : k0 = k
    · subst h0
      simp [setField, lookupField, Ne.symm h]
    · simp only [setField, if_neg h0, lookupField]
      by_cases h1 : k0 = k'
      · simp [h1]
      · simp [h1, ih]

theorem mem_objKeys_of_lookupField (m : List (String × Json)) (k : String)
    (v : Json) (h : lookupField m k = some v) : k ∈ objKeys m := by
  induction m with
  | nil => simp [lookupField] at h
  | cons p rest ih =>
    obtain ⟨k0, v0⟩ := p
    by_cases h0 : k0 = k
    · simp [objKeys, h0]
    · simp only [lookupField, if_neg h0] at h
      simp [objKeys] at ih ⊢
      exact Or.inr (ih h)

theorem lookupField_eq_none_of_not_mem (m : List (String × Json)) (k : String)
    (h : k ∉ objKeys m) : lookupField m k = none := by
  induction m with
  | nil => simp [lookupField]
  | cons p rest ih =>
    obtain ⟨k0, v0⟩ := p
    rw [objKeys_cons] at h
    simp only [List.mem_cons, not_or] at h
    simp [lookupField, Ne.symm h.1, ih h.2]

theorem mem_objKeys_setField (m : List (String × Json)) (k : String) (v : Json)
    (k' : String) (h : k' ∈ objKeys (setField m k v)) :
    k' ∈ objKeys m ∨ k' = k := by
  induction m with
  | nil => simpa [setField, objKeys] using h
  | cons p rest ih =>
    obtain ⟨k0, v0⟩ := p
    by_cases h0 : k0 = k
    · simp only [setField, if_pos h0] at h
      simp [objKeys] at h ⊢
      rcases h with h | h
      · exact Or.inr h
      · exact Or.inl (Or.inr h)
    · simp only [setField, if_neg h0] at h
      simp [objKeys] at h ⊢
      rcases h with h | h
      · exact Or.inl (Or.inl h)
      · rcases ih (by simpa [objKeys] using h) with h1 | h1
        · exact Or.inl (Or.inr (by simpa [objKeys] using h1))
        · exact Or.inr h1

theorem lookupFile_setFile_same (files : List (String × FileContent))
    (p : String) (c : FileContent) :
    lookupFile (setFile files p c) p = some c := by
  induction files with
  | nil => simp [setFile, lookupFile]
  | cons q rest ih =>
    obtain ⟨p0, c0⟩ := q
    by_cases h : p0 = p
    · simp [setFile, h, lookupFile]
    · simp [setFile, h, lookupFile, ih]

theorem fullMetadataOf_sessionId (m : List (String × Json)) (sid now : String) :
    lookupField (fullMetadataOf m sid now) "sessionId" = some (.str sid) := by
  unfold fullMetadataOf
  rw [lookupField_setField_other _ _ _ _ (by decide)]
  exact lookupField_setField_same _ _ _

theorem fullMetadataOf_storedAt (m : List (String × Json)) (sid now : String) :
    lookupField (fullMetadataOf m sid now) "storedAt" = some (.str now) :=
  lookupField_setField_same _ _ _

theorem fullMetadataOf_preserves (m : List (String × Json)) (sid now k : String)
    (v : Json) (hk1 : k ≠ "sessionId") (hk2 : k ≠ "storedAt")
    (h : lookupField m k = some v) :
    lookupField (fullMetadataOf m sid now) k = some v := by
  unfold fullMetadataOf
  rw [lookupField_setField_other _ _ _ _ hk2, lookupField_setField_other _ _ _ _ hk1]
  exact h

theorem fullMetadataOf_absent (m : List (String × Json)) (sid now k : String)
    (hk1 : k ≠ "sessionId") (hk2 : k ≠ "storedAt") (h : k ∉ objKeys m) :
    lookupField (fullMetadataOf m sid now) k = none := by
  unfold fullMetadataOf
  rw [lookupField_setField_other _ _ _ _ hk2, lookupField_setField_other _ _ _ _ hk1]
  exact lookupField_eq_none_of_not_mem _ _ h

theorem fullMetadataOf_keys (m : List (String × Json)) (sid now k : String)
    (h : k ∈ objKeys (fullMetadataOf m sid now)) :
    k ∈ objKeys m ∨ k = "sessionId" ∨ k = "storedAt" := by
  unfold fullMetadataOf at h
  rcases mem_objKeys_setField _ _ _ _ h with h1 | h1
  · rcases mem_objKeys_setField _ _ _ _ h1 with h2 | h2
    · exact Or.inl h2
    · exact Or.inr (Or.inl h2)
  · exact Or.inr (Or.inr h1)

/-- C2: for every caller-supplied metadata object, including one containing
keys named sessionId or storedAt, the document setMetadata produces has its
sessionId field equal to the session identifier in scope and its storedAt
field equal to the store timestamp; the forced values override
identically-named caller fields in every case. -/
theorem setMetadata_reserved_fields_forced
    (env : Env) (ctx : Ctx) (sd : SessionData)
    (metadata : List (String × Json))
    (hget : env.sessionGet = .ok (.withData sd)) :
    ∃ doc t,
      setMetadataRun env ctx metadata = .ok (.stored doc, t) ∧
      lookupField doc "sessionId" = some (.str ctx.sessionID) ∧
      lookupField doc "storedAt" = some (.str env.now) := by
  refine ⟨fullMetadataOf metadata ctx.sessionID env.now,
    [.mkdirRec (storageDir env.homeDir sd.projectID),
     .writeFile (getMetadataPath env.homeDir sd.projectID ctx.sessionID)
       (.wellFormed (.obj (fullMetadataOf metadata ctx.sessionID env.now)))],
    ?_, ?_, ?_⟩
  · simp [setMetadataRun, setMetadataBody, hget]
  · exact fullMetadataOf_sessionId _ _ _
  · exact fullMetadataOf_storedAt _ _ _

/-- C2 witness: a caller object that itself supplies sessionId and storedAt
still ends up with the forced values. -/
theorem setMetadata_reserved_fields_forced_witness :
    (Env.sessionGet ⟨"/home/u", "/ws", "2024-05-01T12:00:00.000Z",
        .ok (.withData ⟨"proj-1", "t"⟩), .ok ()⟩ =
      .ok (.withData ⟨"proj-1", "t"⟩)) ∧
    ∃ doc t,
      setMetadataRun
        ⟨"/home/u", "/ws", "2024-05-01T12:00:00.000Z",
         .ok (.withData ⟨"proj-1", "t"⟩), .ok ()⟩
        ⟨"ses-1"⟩
        [("sessionId", .str "spoof"), ("storedAt", .str "1999"), ("epic", .str "x")] =
        .ok (.stored doc, t) ∧
      lookupField doc "sessionId" = some (.str "ses-1") ∧
      lookupField doc "storedAt" = some (.str "2024-05-01T12:00:00.000Z") :=
  ⟨rfl,
   setMetadata_reserved_fields_forced _ ⟨"ses-1"⟩ ⟨"proj-1", "t"⟩ _ rfl⟩

/-- C3: on the supported path (bash tool, non-Windows platform), a command
not containing the start marker is rewritten to the marker-delimited export
block, a newline, then the original command verbatim; a command already
containing the start marker is left unchanged. -/
theorem toolExecuteBefore_annotates
    (platform sessionID directory command : String)
    (hplat : platform ≠ "win32") :
    (jsIncludes command INJECTION_START_MARKER = false →
       toolExecuteBefore "bash" platform sessionID directory command =
         envSetup sessionID directory ++ "\n" ++ command) ∧
    (jsIncludes command INJECTION_START_MARKER = true →
       toolExecuteBefore "bash" platform sessionID directory command = command) := by
  constructor
  · intro h
    simp [toolExecuteBefore, hplat, h]
  · intro h
    simp [toolExecuteBefore, hplat, h]

/-- C3 witness: a fresh command is annotated; an already-annotated command is
passed through unchanged. -/
theorem toolExecuteBefore_annotates_witness :
    toolExecuteBefore "bash" "linux" "ses-1" "/ws" "echo hi" =
      envSetup "ses-1" "/ws" ++ "\n" ++ "echo hi" ∧
    toolExecuteBefore "bash" "linux" "ses-1" "/ws"
        ("a\n# <opencode-session-metadata-setup>\nb") =
      "a\n# <opencode-session-metadata-setup>\nb" :=
  ⟨(toolExecuteBefore_annotates "linux" "ses-1" "/ws" "echo hi"
      (by decide)).1 (by decide),
   (toolExecuteBefore_annotates "linux" "ses-1" "/ws"
      ("a\n# <opencode-session-metadata-setup>\nb") (by decide)).2 (by decide)⟩

/-- C7: the hook leaves the command unchanged when the tool is not bash, and
when the platform is Windows. -/
theorem toolExecuteBefore_skips
    (toolName platform sessionID directory command : String) :
    (toolName ≠ "bash" →
       toolExecuteBefore toolName platform sessionID directory command = command) ∧
    (platform = "win32" →
       toolExecuteBefore toolName platform sessionID directory command = command) := by
  constructor
  · intro h
    simp [toolExecuteBefore, h]
  · intro h
    by_cases ht : toolName = "bash"
    · simp [toolExecuteBefore, ht, h]
    · simp [toolExecuteBefore, ht]

/-- C7 witness: a non-bash tool and a Windows bash invocation both pass the
command through unchanged. -/
theorem toolExecuteBefore_skips_witness :
    toolExecuteBefore "grep" "linux" "ses-1" "/ws" "echo hi" = "echo hi" ∧
    toolExecuteBefore "bash" "win32" "ses-1" "/ws" "echo hi" = "echo hi" :=
  ⟨(toolExecuteBefore_skips "grep" "linux" "ses-1" "/ws" "echo hi").1 (by decide),
   (toolExecuteBefore_skips "bash" "win32" "ses-1" "/ws" "echo hi").2 rfl⟩

/-- C10: when the host session lookup yields no session data, setMetadata
returns the error outcome with an empty filesystem trace: no storage
directory is created and no metadata file is written, so the filesystem
state is unchanged on that path. -/
theorem setMetadata_no_mutation_on_session_error
    (env : Env) (ctx : Ctx) (metadata : List (String × Json)) (err : String)
    (hget : env.sessionGet = .ok (.withError err)) :
    setMetadataRun env ctx metadata = .ok (.noSession, []) ∧
    renderSetMetadata .noSession =
      "Error: Could not retrieve session data to locate storage" ∧
    ∀ fs : FS, FS.applyTrace fs [] = fs := by
  refine ⟨?_, rfl, fun fs => rfl⟩
  simp [setMetadataRun, setMetadataBody, hget]

/-- C10 witness: a concrete no-data session response leaves the trace empty. -/
theorem setMetadata_no_mutation_on_session_error_witness :
    setMetadataRun
      ⟨"/home/u", "/ws", "2024-05-01T12:00:00.000Z",
       .ok (.withError "session not found"), .ok ()⟩
      ⟨"ses-1"⟩ [("epic", .str "x")] = .ok (.noSession, []) ∧
    renderSetMetadata .noSession =
      "Error: Could not retrieve session data to locate storage" ∧
    ∀ fs : FS, FS.applyTrace fs [] = fs :=
  setMetadata_no_mutation_on_session_error _ ⟨"ses-1"⟩ [("epic", .str "x")]
    "session not found" rfl

/-- C1: writing metadata whose keys avoid the two reserved keys and then
reading for the same project/session pair yields the written document: every
caller-supplied field is present with its original value, and the sessionId
field equals the session identifier used at write time. -/
theorem setMetadata_then_getMetadata_roundtrip
    (env : Env) (ctx : Ctx) (fs : FS) (sd : SessionData)
    (metadata : List (String × Json))
    (hget : env.sessionGet = .ok (.withData sd))
    (hkeys : ∀ k ∈ objKeys metadata, k ≠ "sessionId" ∧ k ≠ "storedAt") :
    ∃ doc t,
      setMetadataRun env ctx metadata = .ok (.stored doc, t) ∧
      getMetadataRun env ctx (FS.applyTrace fs t) =
        .ok (.success (.obj doc),
             [.readFile (getMetadataPath env.homeDir sd.projectID ctx.sessionID)]) ∧
      (∀ k v, lookupField metadata k = some v → lookupField doc k = some v) ∧
      lookupField doc "sessionId" = some (.str ctx.sessionID) := by
  refine ⟨fullMetadataOf metadata ctx.sessionID env.now,
    [.mkdirRec (storageDir env.homeDir sd.projectID),
     .writeFile (getMetadataPath env.homeDir sd.projectID ctx.sessionID)
       (.wellFormed (.obj (fullMetadataOf metadata ctx.sessionID env.now)))],
    ?_, ?_, ?_, ?_⟩
  · simp [setMetadataRun, setMetadataBody, hget]
  · simp [getMetadataRun, getMetadataBody, hget, FS.applyTrace, FS.applyOp,
      lookupFile_setFile_same, jsonParse]
  · intro k v h
    have hk := hkeys k (mem_objKeys_of_lookupField _ _ _ h)
    exact fullMetadataOf_preserves _ _ _ _ _ hk.1 hk.2 h
  · exact fullMetadataOf_sessionId _ _ _

/-- C1 witness: the spec example, write epic then read it back. -/
theorem setMetadata_then_getMetadata_roundtrip_witness :
    ∃ doc t,
      setMetadataRun
        ⟨"/home/u", "/ws", "2024-05-01T12:00:00.000Z",
         .ok (.withData ⟨"proj-123", "t"⟩), .ok ()⟩
        ⟨"ses-1"⟩ [("epic", .str "feature-x")] = .ok (.stored doc, t) ∧
      getMetadataRun
        ⟨"/home/u", "/ws", "2024-05-01T12:00:00.000Z",
         .ok (.withData ⟨"proj-123", "t"⟩), .ok ()⟩
        ⟨"ses-1"⟩ (FS.applyTrace ⟨[], []⟩ t) =
        .ok (.success (.obj doc),
             [.readFile (getMetadataPath "/home/u" "proj-123" "ses-1")]) ∧
      (∀ k v, lookupField [("epic", .str "feature-x")] k = some v →
        lookupField doc k = some v) ∧
      lookupField doc "sessionId" = some (.str "ses-1") :=
  setMetadata_then_getMetadata_roundtrip _ ⟨"ses-1"⟩ ⟨[], []⟩ ⟨"proj-123", "t"⟩
    [("epic", .str "feature-x")] rfl (by decide)

/-- C5: when no metadata file exists for the project/session pair, getMetadata
returns the distinct not-found outcome, whose message names the session, and
that outcome is not the malformed outcome. -/
theorem getMetadata_not_found
    (env : Env) (ctx : Ctx) (fs : FS) (sd : SessionData)
    (hget : env.sessionGet = .ok (.withData sd))
    (habsent : lookupFile fs.files
        (getMetadataPath env.homeDir sd.projectID ctx.sessionID) = none) :
    getMetadataRun env ctx fs =
      .ok (.notFound ctx.sessionID,
           [.readFile (getMetadataPath env.homeDir sd.projectID ctx.sessionID)]) ∧
    (∀ p e, GetMetadataOutcome.notFound ctx.sessionID ≠ .malformed p e) ∧
    (∃ a b, renderGetMetadata (.notFound ctx.sessionID) = a ++ ctx.sessionID ++ b) := by
  refine ⟨?_, ?_, ?_⟩
  · simp [getMetadataRun, getMetadataBody, hget, habsent]
  · intro p e h
    cases h
  · exact ⟨"No metadata found for session: ",
      "\n\nUse the setMetadata tool to store custom data for this session.", rfl⟩

/-- C5 witness: an empty filesystem produces the not-found outcome. -/
theorem getMetadata_not_found_witness :
    getMetadataRun
      ⟨"/home/u", "/ws", "2024-05-01T12:00:00.000Z",
       .ok (.withData ⟨"proj-1", "t"⟩), .ok ()⟩
      ⟨"ses-1"⟩ ⟨[], []⟩ =
      .ok (.notFound "ses-1",
           [.readFile (getMetadataPath "/home/u" "proj-1" "ses-1")]) ∧
    (∀ p e, GetMetadataOutcome.notFound "ses-1" ≠ .malformed p e) ∧
    (∃ a b, renderGetMetadata (.notFound "ses-1") = a ++ "ses-1" ++ b) :=
  getMetadata_not_found _ ⟨"ses-1"⟩ ⟨[], []⟩ ⟨"proj-1", "t"⟩ rfl rfl

/-- C6: when the metadata file exists but holds invalid JSON, getMetadata
returns the distinct malformed outcome, and the rendered message contains
both the file path and the parser diagnostic. -/
theorem getMetadata_malformed
    (env : Env) (ctx : Ctx) (fs : FS) (sd : SessionData) (raw perr : String)
    (hget : env.sessionGet = .ok (.withData sd))
    (hfile : lookupFile fs.files
        (getMetadataPath env.homeDir sd.projectID ctx.sessionID) =
        some (.malformedText raw perr)) :
    getMetadataRun env ctx fs =
      .ok (.malformed (getMetadataPath env.homeDir sd.projectID ctx.sessionID) perr,
           [.readFile (getMetadataPath env.homeDir sd.projectID ctx.sessionID)]) ∧
    ∃ a b, renderGetMetadata
        (.malformed (getMetadataPath env.homeDir sd.projectID ctx.sessionID) perr) =
      a ++ getMetadataPath env.homeDir sd.projectID ctx.sessionID ++ b ++ perr := by
  refine ⟨?_, ?_⟩
  · simp [getMetadataRun, getMetadataBody, hget, hfile, jsonParse]
  · exact ⟨"Error: Metadata file exists but contains invalid JSON\n\nFile: ",
      "\nParse error: ", rfl⟩

/-- C6 witness: a file holding non-JSON text yields the malformed outcome. -/
theorem getMetadata_malformed_witness :
    getMetadataRun
      ⟨"/home/u", "/ws", "2024-05-01T12:00:00.000Z",
       .ok (.withData ⟨"proj-1", "t"⟩), .ok ()⟩
      ⟨"ses-1"⟩
      ⟨[], [(getMetadataPath "/home/u" "proj-1" "ses-1",
             .malformedText "not json" "Unexpected token o in JSON at position 1")]⟩ =
      .ok (.malformed (getMetadataPath "/home/u" "proj-1" "ses-1")
             "Unexpected token o in JSON at position 1",
           [.readFile (getMetadataPath "/home/u" "proj-1" "ses-1")]) ∧
    ∃ a b, renderGetMetadata
        (.malformed (getMetadataPath "/home/u" "proj-1" "ses-1")
           "Unexpected token o in JSON at position 1") =
      a ++ getMetadataPath "/home/u" "proj-1" "ses-1" ++ b
        ++ "Unexpected token o in JSON at position 1" :=
  getMetadata_malformed _ ⟨"ses-1"⟩ _ ⟨"proj-1", "t"⟩ "not json"
    "Unexpected token o in JSON at position 1" rfl (by simp [lookupFile])

/-- C8: two successive setMetadata writes for the same project/session pair
fully replace the stored file: the document readable after the second write
is exactly the second merged document, a caller key from the first write that
is neither repeated in the second nor reserved is absent, and every key of
the final document comes from the second write or is reserved. -/
theorem setMetadata_fully_replaces
    (env env2 : Env) (ctx : Ctx) (fs : FS) (sd : SessionData)
    (m1 m2 : List (String × Json))
    (hget1 : env.sessionGet = .ok (.withData sd))
    (hget2 : env2.sessionGet = .ok (.withData sd))
    (hhome : env2.homeDir = env.homeDir) :
    ∃ doc1 t1 doc2 t2,
      setMetadataRun env ctx m1 = .ok (.stored doc1, t1) ∧
      setMetadataRun env2 ctx m2 = .ok (.stored doc2, t2) ∧
      lookupFile (FS.applyTrace (FS.applyTrace fs t1) t2).files
        (getMetadataPath env.homeDir sd.projectID ctx.sessionID) =
        some (.wellFormed (.obj doc2)) ∧
      (∀ k, k ∈ objKeys m1 → k ∉ objKeys m2 → k ≠ "sessionId" → k ≠ "storedAt" →
        lookupField doc2 k = none) ∧
      (∀ k, k ∈ objKeys doc2 → k ∈ objKeys m2 ∨ k = "sessionId" ∨ k = "storedAt") := by
  refine ⟨fullMetadataOf m1 ctx.sessionID env.now,
    [.mkdirRec (storageDir env.homeDir sd.projectID),
     .writeFile (getMetadataPath env.homeDir sd.projectID ctx.sessionID)
       (.wellFormed (.obj (fullMetadataOf m1 ctx.sessionID env.now)))],
    fullMetadataOf m2 ctx.sessionID env2.now,
    [.mkdirRec (storageDir env2.homeDir sd.projectID),
     .writeFile (getMetadataPath env2.homeDir sd.projectID ctx.sessionID)
       (.wellFormed (.obj (fullMetadataOf m2 ctx.sessionID env2.now)))],
    ?_, ?_, ?_, ?_, ?_⟩
  · simp [setMetadataRun, setMetadataBody, hget1]
  · simp [setMetadataRun, setMetadataBody, hget2]
  · simp [FS.applyTrace, FS.applyOp, hhome, lookupFile_setFile_same]
  · intro k _ hk2 hks hka
    exact fullMetadataOf_absent _ _ _ _ hks hka hk2
  · intro k hk
    exact fullMetadataOf_keys _ _ _ _ hk

/-- C8 witness: writing an epic field then writing a different field leaves
no trace of the first field. -/
theorem setMetadata_fully_replaces_witness :
    ∃ doc1 t1 doc2 t2,
      setMetadataRun
        ⟨"/home/u", "/ws", "2024-05-01T12:00:00.000Z",
         .ok (.withData ⟨"proj-1", "t"⟩), .ok ()⟩
        ⟨"ses-1"⟩ [("epic", .str "feature-x")] = .ok (.stored doc1, t1) ∧
      setMetadataRun
        ⟨"/home/u", "/ws", "2024-05-02T09:30:00.000Z",
         .ok (.withData ⟨"proj-1", "t"⟩), .ok ()⟩
        ⟨"ses-1"⟩ [("owner", .str "alice")] = .ok (.stored doc2, t2) ∧
      lookupFile (FS.applyTrace (FS.applyTrace ⟨[], []⟩ t1) t2).files
        (getMetadataPath "/home/u" "proj-1" "ses-1") =
        some (.wellFormed (.obj doc2)) ∧
      (∀ k, k ∈ objKeys [("epic", .str "feature-x")] →
        k ∉ objKeys [("owner", .str "alice")] → k ≠ "sessionId" → k ≠ "storedAt" →
        lookupField doc2 k = none) ∧
      (∀ k, k ∈ objKeys doc2 →
        k ∈ objKeys [("owner", .str "alice")] ∨ k = "sessionId" ∨ k = "storedAt") :=
  setMetadata_fully_replaces _ _ ⟨"ses-1"⟩ ⟨[], []⟩ ⟨"proj-1", "t"⟩
    [("epic", .str "feature-x")] [("owner", .str "alice")] rfl rfl rfl

/-- C9: getMetadata only reads: in every outcome its filesystem trace
consists of read operations only, and applying the trace leaves the
filesystem state unchanged. -/
theorem getMetadata_reads_only (env : Env) (ctx : Ctx) (fs : FS) :
    ∃ o t, getMetadataRun env ctx fs = .ok (o, t) ∧
      (∀ op ∈ t, op.isRead = true) ∧
      FS.applyTrace fs t = fs := by
  cases hs : env.sessionGet with
  | error e =>
    refine ⟨if e.code = some "ENOENT" then .notFound ctx.sessionID
        else .readError e.message, [], ?_, by simp, rfl⟩
    simp [getMetadataRun, getMetadataBody, hs]
  | ok r =>
    cases r with
    | withError err =>
      refine ⟨.noSession, [], ?_, by simp, rfl⟩
      simp [getMetadataRun, getMetadataBody, hs]
    | withData sd =>
      cases hf : lookupFile fs.files
          (getMetadataPath env.homeDir sd.projectID ctx.sessionID) with
      | none =>
        refine ⟨.notFound ctx.sessionID,
          [.readFile (getMetadataPath env.homeDir sd.projectID ctx.sessionID)],
          ?_, ?_, rfl⟩
        · simp [getMetadataRun, getMetadataBody, hs, hf]
        · intro op hop
          simp at hop
          subst hop
          rfl
      | some content =>
        cases content with
        | wellFormed v =>
          refine ⟨.success v,
            [.readFile (getMetadataPath env.homeDir sd.projectID ctx.sessionID)],
            ?_, ?_, rfl⟩
          · simp [getMetadataRun, getMetadataBody, hs, hf, jsonParse]
          · intro op hop
            simp at hop
            subst hop
            rfl
        | malformedText raw perr =>
          refine ⟨.malformed (getMetadataPath env.homeDir sd.projectID ctx.sessionID)
              perr,
            [.readFile (getMetadataPath env.homeDir sd.projectID ctx.sessionID)],
            ?_, ?_, rfl⟩
          · simp [getMetadataRun, getMetadataBody, hs, hf, jsonParse]
          · intro op hop
            simp at hop
            subst hop
            rfl

/-- C9 witness: a concrete read leaves a concrete filesystem unchanged. -/
theorem getMetadata_reads_only_witness :
    ∃ o t, getMetadataRun
        ⟨"/home/u", "/ws", "2024-05-01T12:00:00.000Z",
         .ok (.withData ⟨"proj-1", "t"⟩), .ok ()⟩
        ⟨"ses-1"⟩
        ⟨["/home/u"], [(getMetadataPath "/home/u" "proj-1" "ses-1",
            .wellFormed (.obj [("epic", .str "x")]))]⟩ = .ok (o, t) ∧
      (∀ op ∈ t, op.isRead = true) ∧
      FS.applyTrace
        ⟨["/home/u"], [(getMetadataPath "/home/u" "proj-1" "ses-1",
            .wellFormed (.obj [("epic", .str "x")]))]⟩ t =
        ⟨["/home/u"], [(getMetadataPath "/home/u" "proj-1" "ses-1",
            .wellFormed (.obj [("epic", .str "x")]))]⟩ :=
  getMetadata_reads_only _ ⟨"ses-1"⟩ _

/-- C4 counterexample: getSessionData.execute wraps no try/catch around the
host session.get call, so when that call throws, the exception propagates to
the caller instead of becoming a string result. -/
theorem getSessionData_raises_on_thrown_host_error :
    getSessionDataRun
      ⟨"/home/u", "/ws", "2024-05-01T12:00:00.000Z",
       .error ⟨none, "connection refused"⟩, .ok ()⟩ =
      .error ⟨none, "connection refused"⟩ := rfl

/-- C4 amended: setSessionData, getMetadata and setMetadata catch every
exception and return a result that renders to a descriptive string;
getSessionData also returns a result whenever the host call itself does not
throw, but it propagates a thrown host exception. -/
theorem tool_surface_error_handling
    (env : Env) (ctx : Ctx) (fs : FS) (title : String)
    (metadata : List (String × Json)) :
    (∃ r, setSessionDataRun env ctx title = .ok r) ∧
    (∃ r, getMetadataRun env ctx fs = .ok r) ∧
    (∃ r, setMetadataRun env ctx metadata = .ok r) ∧
    (∀ hr, env.sessionGet = .ok hr → ∃ r, getSessionDataRun env = .ok r) := by
  refine ⟨?_, ?_, ?_, ?_⟩
  · cases hu : env.sessionUpdate with
    | ok u => exact ⟨.updated ctx.sessionID title, by simp [setSessionDataRun, hu]⟩
    | error e => exact ⟨.updateError e.message, by simp [setSessionDataRun, hu]⟩
  · rcases hb : getMetadataBody env ctx fs with ⟨res, t⟩
    cases res with
    | ok o => exact ⟨(o, t), by simp [getMetadataRun, hb]⟩
    | error e =>
      exact ⟨(if e.code = some "ENOENT" then .notFound ctx.sessionID
          else .readError e.message, t), by simp [getMetadataRun, hb]⟩
  · rcases hb : setMetadataBody env ctx metadata with ⟨res, t⟩
    cases res with
    | ok o => exact ⟨(o, t), by simp [setMetadataRun, hb]⟩
    | error e => exact ⟨(.storeError e.message, t), by simp [setMetadataRun, hb]⟩
  · intro hr h
    cases hr with
    | withData sd => exact ⟨.sessionJson sd, by simp [getSessionDataRun, h]⟩
    | withError err => exact ⟨.errorPayload err, by simp [getSessionDataRun, h]⟩

/-- C4 amended witness: concrete invocations of all four operations return
results rather than throwing. -/
theorem tool_surface_error_handling_witness :
    (∃ r, setSessionDataRun
        ⟨"/home/u", "/ws", "2024-05-01T12:00:00.000Z",
         .ok (.withData ⟨"proj-1", "t"⟩), .ok ()⟩ ⟨"ses-1"⟩ "new title" = .ok r) ∧
    (∃ r, getMetadataRun
        ⟨"/home/u", "/ws", "2024-05-01T12:00:00.000Z",
         .ok (.withData ⟨"proj-1", "t"⟩), .ok ()⟩ ⟨"ses-1"⟩ ⟨[], []⟩ = .ok r) ∧
    (∃ r, setMetadataRun
        ⟨"/home/u", "/ws", "2024-05-01T12:00:00.000Z",
         .ok (.withData ⟨"proj-1", "t"⟩), .ok ()⟩ ⟨"ses-1"⟩
        [("epic", .str "x")] = .ok r) ∧
    (∀ hr, Env.sessionGet
        ⟨"/home/u", "/ws", "2024-05-01T12:00:00.000Z",
         .ok (.withData ⟨"proj-1", "t"⟩), .ok ()⟩ = .ok hr →
      ∃ r, getSessionDataRun
        ⟨"/home/u", "/ws", "2024-05-01T12:00:00.000Z",
         .ok (.withData ⟨"proj-1", "t"⟩), .ok ()⟩ = .ok r) :=
  tool_surface_error_handling _ ⟨"ses-1"⟩ ⟨[], []⟩ "new title" [("epic", .str "x")]
